import Mathlib

/-!
Verification of the AJETE autonomous web-journey agent core.

This file gives a shallow embedding, in Lean 4, of the decision engine,
stagnation detector, loop-guard hint, Set-of-Marks (SoM) perception
pipeline, speech gate, failed-target ledger, model-response parser and
action executor of the agent, and proves (or refutes) the testable
properties stated for them.

Every definition is translated directly from the TypeScript source:
  * `normalizeDecision`, `extractFirstJsonObject`, `parseModelJson`,
    `detectStagnation`, `buildLoopGuardHint`, `markTargetFailure`,
    `executeAction`, the TTS-gate state transitions — from the agent core;
  * `getInteractiveScore`, `hasStrongInteractiveAncestor`, `isVisible`,
    `isInteractable`, `overlapRatio`, the greedy mark selection and the
    returned observation — from `utils/som.ts`;
  * the `tts` broadcast handler — from `server.ts`.
JavaScript strings are modelled as Lean `String`, machine numbers that the
relevant code only compares and adds are modelled as `Nat`/`Int`, and CSS
pixel geometry is modelled over `ℚ`.
-/

namespace AJETE

/-- JavaScript-style truthiness of an optional string: `undefined`, `null`
and the empty string are falsy. -/
def strTruthy : Option String → Bool
  | none => false
  | some s => s ≠ ""

/-- `String.prototype.trim`: strip leading and trailing whitespace. -/
def jsTrim (s : String) : String :=
  ⟨(s.data.dropWhile Char.isWhitespace).reverse.dropWhile Char.isWhitespace |>.reverse⟩

/-- `String.prototype.toLowerCase` restricted to ASCII, which covers every
string the agent lowercases (action names, tags, roles, attribute text). -/
def jsLower (s : String) : String :=
  ⟨s.data.map Char.toLower⟩

/-- `Array.prototype.slice(-n)`: the last `n` elements of a list (all of
them when fewer than `n` exist). -/
def lastN (n : Nat) (l : List α) : List α :=
  l.drop (l.length - n)

/-! ## Decision normalisation (`normalizeDecision`, agent core lines 94–122) -/

/-- The action alphabet of the typed decision record (`LLMResponse.action`
in the source: `'click' | 'scroll' | 'type' | 'wait' | 'done' | 'stop'`). -/
inductive Action where
  | click | scroll | type | wait | done | stop
deriving DecidableEq, Repr

/-- A raw model-response object as it reaches `normalizeDecision`: each
field may be absent (`none` models JS `undefined`/`null`). The source
stringifies `raw.action` and `raw.targetId`; we model them as the
resulting strings. -/
structure RawResponse where
  action : Option String
  thought : Option String
  targetId : Option String
  value : Option String
  inputValue : Option String
deriving DecidableEq, Repr

/-- The typed decision record (`LLMResponse` in the source). -/
structure LLMResponse where
  thought : String
  action : Action
  targetId : Option String
  value : Option String
deriving DecidableEq, Repr

/-- `String(raw?.action || '').toLowerCase().trim()` from the source. -/
def rawActionKey (raw : RawResponse) : String :=
  jsTrim (jsLower ((raw.action.getD "")))

/-- The default uncertainty thought used when the model supplies none. -/
def defaultThought : String := "Ich bin unsicher und warte kurz."

/-- `normalizeDecision` (agent core lines 94–122): map the raw action
string through the alias table, substitute the default thought for a
missing or blank one, stringify/trim the target id (dropping an empty
result), and accept `value` or the legacy `inputValue`. -/
def normalizeDecision (raw : RawResponse) : LLMResponse :=
  let rawAction := rawActionKey raw
  let mappedAction : Action :=
    if rawAction = "click" then .click
    else if rawAction = "scroll" then .scroll
    else if rawAction = "type" then .type
    else if rawAction = "done" then .done
    else if rawAction = "stop" then .stop
    else if rawAction = "fail" then .done
    else .wait
  let thought :=
    match raw.thought with
    | some t => if (jsTrim t).length > 0 then jsTrim t else defaultThought
    | none => defaultThought
  let targetId :=
    match raw.targetId with
    | some t => let tt := jsTrim t; if tt = "" then none else some tt
    | none => none
  let value :=
    match raw.value with
    | some v => some v
    | none => raw.inputValue
  { thought := thought, action := mappedAction, targetId := targetId, value := value }

/-! ## History keys, loop-guard hint and stagnation detector -/

/-- The actions counted as actionable by the stagnation detector:
`click`, `type`, `scroll`. -/
def isActionable : Action → Bool
  | .click => true
  | .type => true
  | .scroll => true
  | _ => false

/-- The printed name of an action, as it appears in the template strings
of the source. -/
def actionName : Action → String
  | .click => "click"
  | .scroll => "scroll"
  | .type => "type"
  | .wait => "wait"
  | .done => "done"
  | .stop => "stop"

/-- JS `opt || dflt` on an optional string (empty string is falsy). -/
def jsOrElse (o : Option String) (dflt : String) : String :=
  match o with
  | some s => if s = "" then dflt else s
  | none => dflt

/-- The grouping key used by both `buildLoopGuardHint` and
`detectStagnation` in the source: the template `action:targetId or -`. -/
def historyKey (d : LLMResponse) : String :=
  actionName d.action ++ ":" ++ jsOrElse d.targetId "-"

/-- `detectStagnation` (agent core lines 1146–1164): look at the last ten
history entries; with fewer than ten, decrement the counter (clamped at
zero) and report no stagnation; otherwise count the actionable entries and
their distinct keys, increment the counter when ≥8 are actionable with ≤3
distinct keys, else decrement, and report stagnation when the updated
counter has reached 3 (the control loop then exits, lines 671–674). -/
def detectStagnation (history : List LLMResponse) (counter : Nat) : Nat × Bool :=
  let recent := lastN 10 history
  if recent.length < 10 then (counter - 1, false)
  else
    let actionable := recent.filter (fun s => isActionable s.action)
    let uniqueTargets := (actionable.map historyKey).dedup
    let loopLike := decide (8 ≤ actionable.length) && decide (uniqueTargets.length ≤ 3)
    let next := if loopLike then counter + 1 else counter - 1
    (next, decide (3 ≤ next))

/-- The stagnation detector exactly as the claim words it: inspect the
last ten history entries (however many exist), increment when at least 8
are actionable covering at most 3 unique keys, otherwise decrement
clamped at zero; exit when the counter reaches 3. -/
def detectStagnationClaim (history : List LLMResponse) (counter : Nat) : Nat × Bool :=
  let recent := lastN 10 history
  let actionable := recent.filter (fun s => isActionable s.action)
  let uniqueTargets := (actionable.map historyKey).dedup
  let stagnant := decide (8 ≤ actionable.length) && decide (uniqueTargets.length ≤ 3)
  let next := if stagnant then counter + 1 else counter - 1
  (next, decide (3 ≤ next))

/-- `buildLoopGuardHint` (agent core lines 1120–1144): group the last
eight history entries by key; the source returns the empty string (no
hint) when fewer than six recent entries exist or no key repeats, and
otherwise an anti-loop paragraph listing the repeated keys. We model the
returned hint as `none` for the empty string and `some repeatedKeys` for
the paragraph. -/
def buildLoopGuardHint (history : List LLMResponse) : Option (List String) :=
  let recent := lastN 8 history
  if recent.length < 6 then none
  else
    let keys := recent.map historyKey
    let repeated := keys.dedup.filter (fun k => 2 ≤ keys.count k)
    if repeated.isEmpty then none else some repeated

/-! ## Failed-target ledger -/

/-- Look up a mark id in the failure ledger (`Map.get`, default 0). -/
def ledgerGet : List (String × Nat) → String → Nat
  | [], _ => 0
  | (k, v) :: rest, id => if k = id then v else ledgerGet rest id

/-- `Map.set`: replace the binding for `id`, or append a fresh one. -/
def ledgerSet (led : List (String × Nat)) (id : String) (n : Nat) : List (String × Nat) :=
  match led with
  | [] => [(id, n)]
  | (k, v) :: rest => if k = id then (id, n) :: rest else (k, v) :: ledgerSet rest id n

/-- `markTargetFailure` (agent core lines 1288–1291): a falsy (absent or
empty) target id is ignored, otherwise its failure count is incremented. -/
def markTargetFailure (targetId : Option String) (led : List (String × Nat)) :
    List (String × Nat) :=
  match targetId with
  | none => led
  | some id => if id = "" then led else ledgerSet led id (ledgerGet led id + 1)

/-- `\s+(\d+)` after a matched keyword: at least one whitespace character
followed by at least one digit; returns the digit run. -/
def digitsAfterWs (cs : List Char) : Option String :=
  let ws := cs.takeWhile Char.isWhitespace
  if ws.isEmpty then none
  else
    let digits := (cs.drop ws.length).takeWhile Char.isDigit
    if digits.isEmpty then none else some ⟨digits⟩

/-- The loop's error-message scan (agent core lines 699–703): the regex
`(?:Element|Input)\s+(\d+)` applied to the message, returning the first
captured digit group. -/
def findMissingTargetId : List Char → Option String
  | [] => none
  | c :: rest =>
    if ("Element".data).isPrefixOf (c :: rest) then
      match digitsAfterWs ((c :: rest).drop 7) with
      | some d => some d
      | none => findMissingTargetId rest
    else if ("Input".data).isPrefixOf (c :: rest) then
      match digitsAfterWs ((c :: rest).drop 5) with
      | some d => some d
      | none => findMissingTargetId rest
    else findMissingTargetId rest

/-- The effect of one loop turn on the failed-target ledger (agent core
lines 696–708): a turn that raised no exception leaves the ledger
untouched (no statement of the success path writes to it); a turn that
raised `msg` charges the mark id named in `msg`, if any. -/
def loopTurnLedger (errMsg : Option String) (led : List (String × Nat)) :
    List (String × Nat) :=
  match errMsg with
  | none => led
  | some msg =>
    match findMissingTargetId msg.data with
    | some tid => ledgerSet led tid (ledgerGet led tid + 1)
    | none => led

/-- `start()` clears the ledger (agent core line 311): per-run reset. -/
def runStartLedger : List (String × Nat) := []

/-! ## Speech gate state (agent core lines 458–477, 568–597) and the
server's `tts` broadcast handler (`server.ts`) -/

/-- The TTS-relevant agent fields: the runtime voice flag, the id of the
outstanding speech request (`pendingTtsAckId`), whether a resolver for a
suspended wait is parked (`pendingTtsAckResolve !== null`) and whether
the watchdog timer is armed (`pendingTtsAckTimer !== null`). -/
structure TtsGateState where
  isTtsEnabled : Bool
  pendingTtsAckId : Option String
  resolverParked : Bool
  timerArmed : Bool
deriving DecidableEq

/-- `setTtsEnabled` (agent core lines 464–466): the runtime voice toggle
assigns the flag and nothing else. -/
def setTtsEnabled (enabled : Bool) (s : TtsGateState) : TtsGateState :=
  { s with isTtsEnabled := enabled }

/-- `clearPendingTtsAck` (agent core lines 468–477): null out the pending
request id, cancel the watchdog timer, and invoke the parked resolver
(resuming the suspended wait) if one exists. -/
def clearPendingTtsAck (s : TtsGateState) : TtsGateState :=
  { s with pendingTtsAckId := none, resolverParked := false, timerArmed := false }

/-- `notifyTtsPlaybackDone` (agent core lines 458–462): ignore a falsy
request id, ignore when no request is pending or the ids differ, and
otherwise clear (and thereby resolve) the pending wait. -/
def notifyTtsPlaybackDone (requestId : Option String) (s : TtsGateState) : TtsGateState :=
  match requestId, s.pendingTtsAckId with
  | some rid, some pid =>
    if rid = "" then s
    else if rid = pid then clearPendingTtsAck s else s
  | _, _ => s

/-- `stop()` restricted to the TTS fields (agent core lines 361–377):
the voice flag is reset to false and `clearPendingTtsAck` is invoked. -/
def stopTtsFields (s : TtsGateState) : TtsGateState :=
  clearPendingTtsAck { s with isTtsEnabled := false }

/-- The watchdog timeout callback (agent core lines 585–588) simply
invokes `clearPendingTtsAck`. -/
def ttsWatchdogFire (s : TtsGateState) : TtsGateState :=
  clearPendingTtsAck s

/-- An operator websocket client; `readyState = 1` is OPEN. -/
structure WsClient where
  readyState : Nat
deriving DecidableEq

/-- `broadcast` (`server.ts`): send to every OPEN client and return the
number of deliveries. -/
def broadcastDelivered (clients : List WsClient) : Nat :=
  clients.countP (fun c => c.readyState == 1)

/-- The server's `agent.on('tts')` handler (`server.ts` lines 277–282):
broadcast the event; when it was delivered to nobody, immediately
acknowledge playback for the event's request id. -/
def serverTtsHandler (clients : List WsClient) (dataId : Option String)
    (s : TtsGateState) : TtsGateState :=
  if broadcastDelivered clients = 0 then notifyTtsPlaybackDone dataId s else s

/-- `speakThoughtAndWait`'s emission step (agent core lines 582–596):
before the promise suspends, the gate records the pending request id,
parks the resolver, arms the watchdog and synchronously emits the `tts`
event, which the server handler above processes at once. -/
def speakEmitTts (clients : List WsClient) (requestId : String)
    (s : TtsGateState) : TtsGateState :=
  serverTtsHandler clients (some requestId)
    { s with pendingTtsAckId := some requestId, resolverParked := true, timerArmed := true }

/-! ## SoM perception (`utils/som.ts`)

CSS pixel geometry is modelled over `ℚ`; a DOMRect is determined by its
left/top corner and its width/height, with `right = left + width`,
`bottom = top + height` and `area = width * height` exactly as `getRect`
computes them. -/

/-- A bounding client rectangle. -/
structure RectD where
  left : ℚ
  top : ℚ
  width : ℚ
  height : ℚ
deriving DecidableEq

/-- `rect.right` as captured by `getRect`. -/
def RectD.right (r : RectD) : ℚ := r.left + r.width

/-- `rect.bottom` as captured by `getRect`. -/
def RectD.bottom (r : RectD) : ℚ := r.top + r.height

/-- `rect.area` as captured by `getRect`. -/
def RectD.area (r : RectD) : ℚ := r.width * r.height

/-- The viewport dimensions (`window.innerWidth` / `innerHeight`). -/
structure Viewport where
  innerWidth : ℚ
  innerHeight : ℚ
deriving DecidableEq

/-- `isInViewport` (`som.ts` lines 104–109). -/
def isInViewport (vp : Viewport) (r : RectD) : Bool :=
  decide (0 < r.bottom) && decide (0 < r.right) &&
  decide (r.top < vp.innerHeight) && decide (r.left < vp.innerWidth)

/-- The DOM-side facts about one element that the SoM score, visibility
and metadata computations read. `attrsText` is the joined, lowercased
`name=value` attribute string the source builds; `tabindex` is the parsed
attribute when it is a finite number. -/
structure ElementFields where
  tag : String
  role : String
  tabindex : Option Int
  hasOnclick : Bool
  cursor : String
  className : String
  attrsText : String
  textContent : String
  innerText : String
  ariaLabel : String
  title : String
  href : String
  inputTypeHidden : Bool
  disabled : Bool
  ariaDisabledTrue : Bool
  ariaHiddenTrue : Bool
  isOverlay : Bool
  checkVisibilityOk : Bool
  displayNone : Bool
  visibilityHidden : Bool
  pointerEventsNone : Bool
deriving DecidableEq

/-- `NATIVE_TAGS` (`som.ts` line 89). -/
def NATIVE_TAGS : List String :=
  ["button", "a", "input", "select", "textarea", "details", "summary"]

/-- `INTERACTIVE_ROLES` (`som.ts` lines 86–88). -/
def INTERACTIVE_ROLES : List String :=
  ["button", "link", "checkbox", "menuitem", "option", "tab", "switch", "radio"]

/-- Does `s` contain `pat` as a contiguous substring
(`String.prototype.includes`)? -/
def containsSub (pat : List Char) : List Char → Bool
  | [] => pat.isEmpty
  | c :: rest => pat.isPrefixOf (c :: rest) || containsSub pat rest

/-- The class-keyword test from `som.ts` line 134, the regex
`(^|[\s_-])(btn|button|cta|link|nav|menu|tab)([\s_-]|$)` on the lowercased
class string: some separator-delimited token equals one of the keywords. -/
def hasInteractiveClassB (lowClassName : String) : Bool :=
  (lowClassName.data.splitOnP (fun c => c.isWhitespace || c == '_' || c == '-')).any
    (fun t => (["btn", "button", "cta", "link", "nav", "menu", "tab"] : List String).contains ⟨t⟩)

/-- The data-attribute test from `som.ts` lines 135–140. -/
def hasInteractiveDataB (attrsText : String) : Bool :=
  containsSub "data-action=".data attrsText.data ||
  containsSub "data-click".data attrsText.data ||
  containsSub "data-testid=".data attrsText.data ||
  containsSub "cookie".data attrsText.data ||
  containsSub "consent".data attrsText.data

/-- `getInteractiveScore` (`som.ts` lines 111–154): hidden inputs and
disabled/aria-hidden elements score 0; native interactive tags score 4;
ARIA interactive roles score 3; onclick or a non-negative tabindex scores
2; pointer cursor with a semantic hint scores 1; anything else 0. -/
def getInteractiveScore (e : ElementFields) : Nat :=
  let tag := jsLower e.tag
  let role := jsLower e.role
  if tag = "input" ∧ e.inputTypeHidden then 0
  else if e.disabled then 0
  else if e.ariaDisabledTrue then 0
  else if e.ariaHiddenTrue then 0
  else
    let isNativeInteractive := NATIVE_TAGS.contains tag
    let isRoleInteractive := INTERACTIVE_ROLES.contains role
    let hasClickBehavior := e.hasOnclick ||
      (match e.tabindex with
       | some t => decide (0 ≤ t)
       | none => false)
    let hasPointerCursor := e.cursor == "pointer"
    let hasInteractiveClass := hasInteractiveClassB (jsLower e.className)
    let hasInteractiveData := hasInteractiveDataB e.attrsText
    let hasSemanticLabel :=
      decide (0 < (jsTrim e.textContent).length) ||
      decide (0 < (jsTrim e.ariaLabel).length) ||
      decide (0 < (jsTrim e.title).length)
    if isNativeInteractive then 4
    else if isRoleInteractive then 3
    else if hasClickBehavior then 2
    else if hasPointerCursor && (hasInteractiveClass || hasInteractiveData || hasSemanticLabel) then 1
    else 0

/-- The walk of `hasStrongInteractiveAncestor` (`som.ts` lines 156–167):
up to `MAX_ANCESTOR_DEPTH = 8` ancestors, stopping (negatively) at the
overlay container, reporting any ancestor of score ≥ 2. -/
def hasStrongAncestorAux : List ElementFields → Nat → Bool
  | [], _ => false
  | a :: rest, depth =>
    if 8 ≤ depth then false
    else if a.isOverlay then false
    else if 2 ≤ getInteractiveScore a then true
    else hasStrongAncestorAux rest (depth + 1)

/-- `hasStrongInteractiveAncestor` over the parent chain (nearest parent
first). -/
def hasStrongInteractiveAncestor (ancestors : List ElementFields) : Bool :=
  hasStrongAncestorAux ancestors 0

/-- One element as the traversal sees it: its own fields, its bounding
rectangle, and its parent chain (nearest first). -/
structure SomNode where
  fields : ElementFields
  rect : RectD
  ancestors : List ElementFields
deriving DecidableEq

/-- `isVisible` (`som.ts` lines 169–180): `checkVisibility` plus the
display/visibility/pointer-events style checks, positive dimensions and
viewport intersection. -/
def isVisible (vp : Viewport) (n : SomNode) : Bool :=
  n.fields.checkVisibilityOk &&
  !n.fields.displayNone &&
  !n.fields.visibilityHidden &&
  !n.fields.pointerEventsNone &&
  decide (0 < n.rect.width) &&
  decide (0 < n.rect.height) &&
  isInViewport vp n.rect

/-- The score the traversal captures for a candidate. -/
def nodeScore (n : SomNode) : Nat := getInteractiveScore n.fields

/-- `isInteractable` (`som.ts` lines 182–203): visible, positive score,
the `MIN_SIDE_PX = 18` / `MIN_AREA_PX = 320` size filter for non-native
tags, and the strong-ancestor dedup for scores ≤ 2. -/
def isInteractable (vp : Viewport) (n : SomNode) : Bool :=
  isVisible vp n &&
  (let score := getInteractiveScore n.fields
   if score = 0 then false
   else
     let isNative := NATIVE_TAGS.contains (jsLower n.fields.tag)
     if !isNative &&
        (decide (n.rect.width < 18) || decide (n.rect.height < 18) || decide (n.rect.area < 320)) then
       false
     else if decide (score ≤ 2) && hasStrongInteractiveAncestor n.ancestors then false
     else true)

/-- The candidate comparator of `som.ts` lines 256–259 as a total
precedence test: higher score first, larger area first on ties. -/
def candBefore (a b : SomNode) : Bool :=
  if nodeScore a = nodeScore b then decide (b.rect.area ≤ a.rect.area)
  else decide (nodeScore b < nodeScore a)

/-- Ordered insertion for the candidate sort. -/
def insertSorted (x : SomNode) : List SomNode → List SomNode
  | [] => [x]
  | y :: rest => if candBefore x y then x :: y :: rest else y :: insertSorted x rest

/-- The candidate sort (`candidates.sort`, `som.ts` lines 256–259). -/
def sortCandidates : List SomNode → List SomNode
  | [] => []
  | x :: rest => insertSorted x (sortCandidates rest)

/-- `intersectionArea`-style overlap area of two rectangles; also the
numerator of `overlapRatio` (`som.ts` lines 243–253 and 305–313). -/
def intersectionArea (a b : RectD) : ℚ :=
  let left := max a.left b.left
  let right := min a.right b.right
  let top := max a.top b.top
  let bottom := min a.bottom b.bottom
  max 0 (right - left) * max 0 (bottom - top)

/-- `overlapRatio` (`som.ts` lines 243–253): overlap area divided by the
smaller rectangle's area clamped below at 1. -/
def overlapRatio (a b : RectD) : ℚ :=
  intersectionArea a b / max 1 (min a.area b.area)

/-- The greedy acceptance loop (`som.ts` lines 261–272): stop at
`MAX_MARKS = 220` accepted candidates; reject any candidate overlapping
an already-accepted rectangle by more than 0.92. -/
def selectAux : List SomNode → List SomNode → List SomNode
  | [], acc => acc
  | c :: rest, acc =>
    if 220 ≤ acc.length then acc
    else if acc.any (fun e => decide ((92 : ℚ)/100 < overlapRatio c.rect e.rect)) then
      selectAux rest acc
    else
      selectAux rest (acc ++ [c])

/-- The accepted marks of one observation, in acceptance order. -/
def selectMarks (cs : List SomNode) : List SomNode := selectAux cs []

/-- One entry of the `elements` array returned by `injectSoM`
(`som.ts` lines 417–432). -/
structure SoMElementMeta where
  id : Nat
  tag : String
  role : Option String
  text : Option String
  ariaLabel : Option String
  title : Option String
  href : Option String
deriving DecidableEq

/-- Collapse whitespace runs to single spaces (`replace(/\s+/g, ' ')`);
the flag records whether the previous character was whitespace. -/
def collapseWsAux : Bool → List Char → List Char
  | _, [] => []
  | prevWs, c :: rest =>
    if c.isWhitespace then
      if prevWs then collapseWsAux true rest
      else ' ' :: collapseWsAux true rest
    else c :: collapseWsAux false rest

/-- Collapse whitespace runs to single spaces (`replace(/\s+/g, ' ')`). -/
def collapseWs (cs : List Char) : List Char := collapseWsAux false cs

/-- The first `n` characters of a string (`slice(0, n)`). -/
def strTake (n : Nat) (s : String) : String := ⟨s.data.take n⟩

/-- `s || undefined`: an empty string becomes `none`. -/
def optOfString (s : String) : Option String :=
  if s = "" then none else some s

/-- The metadata record built for the accepted mark at index `i`
(`som.ts` lines 417–432): the sequentially assigned id, lowercased tag,
optional lowercased role, and the trimmed, 80-character-capped text,
aria-label, title and href fields. -/
def metaOf (i : Nat) (n : SomNode) : SoMElementMeta :=
  let textRaw := if n.fields.innerText ≠ "" then n.fields.innerText else n.fields.textContent
  let text := strTake 80 (jsTrim ⟨collapseWs textRaw.data⟩)
  { id := i
    tag := jsLower n.fields.tag
    role := optOfString (jsLower n.fields.role)
    text := optOfString text
    ariaLabel := optOfString (strTake 80 (jsTrim n.fields.ariaLabel))
    title := optOfString (strTake 80 (jsTrim n.fields.title))
    href := optOfString n.fields.href }

/-- The observation returned by `injectSoM` (`som.ts` lines 434). -/
structure SoMResult where
  status : String
  count : Nat
  elements : List SoMElementMeta
deriving DecidableEq

/-- `injectSoM` after the stability wait (`som.ts` lines 67–277 and
417–435): filter the traversal order down to interactable elements, sort
by score then area, greedily accept up to 220 non-overlapping marks,
assign ids densely from 0 in acceptance order, and return the count with
one metadata record per accepted mark. -/
def injectSoM (vp : Viewport) (domNodes : List SomNode) : SoMResult :=
  let accepted := selectMarks (sortCandidates (domNodes.filter (isInteractable vp)))
  { status := "success"
    count := accepted.length
    elements := accepted.enum.map (fun p => metaOf p.1 p.2) }

/-! ## Model-response parsing (`extractFirstJsonObject`, `parseModelJson`,
agent core lines 44–92)

`JSON.parse` is modelled by a fuel-indexed recursive-descent parser for
the JSON grammar (ECMA-404): a parse that the source would complete
returns `some`, a parse that would throw returns `none`. -/

/-- A parsed JSON value. The numeric payload keeps the lexeme. -/
inductive J where
  | jnull
  | jbool (b : Bool)
  | jnum (lex : String)
  | jstr (s : String)
  | jarr (xs : List J)
  | jobj (fields : List (String × J))

/-- Skip JSON insignificant whitespace. -/
def skipWs (cs : List Char) : List Char :=
  cs.dropWhile (fun c => c == ' ' || c == '\t' || c == '\n' || c == '\r')

/-- The value of a hexadecimal digit. -/
def hexVal (c : Char) : Option Nat :=
  if c.isDigit then some (c.toNat - 48)
  else if 'a' ≤ c ∧ c ≤ 'f' then some (c.toNat - 87)
  else if 'A' ≤ c ∧ c ≤ 'F' then some (c.toNat - 55)
  else none

/-- Parse the remainder of a JSON string literal (the opening quote is
already consumed), decoding escapes; `acc` holds decoded characters in
reverse. -/
def parseJStringAux : List Char → List Char → Option (String × List Char)
  | _, [] => none
  | acc, c :: rest =>
    if c == '"' then some (⟨acc.reverse⟩, rest)
    else if c == '\\' then
      match rest with
      | [] => none
      | e :: rest2 =>
        if e == '"' || e == '\\' || e == '/' then parseJStringAux (e :: acc) rest2
        else if e == 'b' then parseJStringAux (Char.ofNat 8 :: acc) rest2
        else if e == 'f' then parseJStringAux (Char.ofNat 12 :: acc) rest2
        else if e == 'n' then parseJStringAux ('\n' :: acc) rest2
        else if e == 'r' then parseJStringAux ('\r' :: acc) rest2
        else if e == 't' then parseJStringAux ('\t' :: acc) rest2
        else if e == 'u' then
          match rest2 with
          | h1 :: h2 :: h3 :: h4 :: rest3 =>
            match hexVal h1, hexVal h2, hexVal h3, hexVal h4 with
            | some v1, some v2, some v3, some v4 =>
              parseJStringAux (Char.ofNat (((v1 * 16 + v2) * 16 + v3) * 16 + v4) :: acc) rest3
            | _, _, _, _ => none
          | _ => none
        else none
    else if c.toNat < 32 then none
    else parseJStringAux (c :: acc) rest

/-- Lex a JSON number (`-? (0 | [1-9][0-9]*) (. [0-9]+)? ([eE][+-]?[0-9]+)?`),
returning the lexeme and the remainder. -/
def parseNumberLex (cs : List Char) : Option (List Char × List Char) :=
  let signSplit : List Char × List Char :=
    match cs with
    | c :: rest => if c == '-' then (['-'], rest) else ([], cs)
    | [] => ([], cs)
  let neg := signSplit.1
  let cs1 := signSplit.2
  match cs1 with
  | [] => none
  | d :: rest =>
    let intSplit : Option (List Char × List Char) :=
      if d == '0' then some (['0'], rest)
      else if d.isDigit then
        some ((d :: rest).takeWhile Char.isDigit, (d :: rest).dropWhile Char.isDigit)
      else none
    match intSplit with
    | none => none
    | some (ip, rest2) =>
      let fracSplit : Option (List Char × List Char) :=
        match rest2 with
        | f :: rest3 =>
          if f == '.' then
            let fd := rest3.takeWhile Char.isDigit
            if fd.isEmpty then none else some (['.'] ++ fd, rest3.dropWhile Char.isDigit)
          else some ([], rest2)
        | [] => some ([], rest2)
      match fracSplit with
      | none => none
      | some (fp, rest4) =>
        let expSplit : Option (List Char × List Char) :=
          match rest4 with
          | e :: rest5 =>
            if e == 'e' || e == 'E' then
              let signRest : List Char × List Char :=
                match rest5 with
                | s :: rest6 => if s == '+' || s == '-' then ([s], rest6) else ([], rest5)
                | [] => ([], rest5)
              let ed := signRest.2.takeWhile Char.isDigit
              if ed.isEmpty then none
              else some ([e] ++ signRest.1 ++ ed, signRest.2.dropWhile Char.isDigit)
            else some ([], rest4)
          | [] => some ([], rest4)
        match expSplit with
        | none => none
        | some (ep, rest7) => some (neg ++ ip ++ fp ++ ep, rest7)

/-- The parser state: a value, the members of an object being read, or
the items of an array being read. -/
inductive PMode where
  | value
  | members (acc : List (String × J))
  | items (acc : List J)

/-- The recursive descent over the JSON grammar, fuelled to make the
recursion structural. -/
def parseRun : Nat → PMode → List Char → Option (J × List Char)
  | 0, _, _ => none
  | Nat.succ fuel, PMode.value, cs =>
    (match skipWs cs with
    | [] => none
    | c :: rest =>
      if c == Char.ofNat 123 then
        match skipWs rest with
        | d :: rest2 =>
          if d == Char.ofNat 125 then some (.jobj [], rest2)
          else parseRun fuel (PMode.members []) (skipWs rest)
        | [] => none
      else if c == '[' then
        match skipWs rest with
        | d :: rest2 =>
          if d == ']' then some (.jarr [], rest2)
          else parseRun fuel (PMode.items []) (skipWs rest)
        | [] => none
      else if c == '"' then
        match parseJStringAux [] rest with
        | some (s, rest2) => some (.jstr s, rest2)
        | none => none
      else if ("true".data).isPrefixOf (c :: rest) then some (.jbool true, (c :: rest).drop 4)
      else if ("false".data).isPrefixOf (c :: rest) then some (.jbool false, (c :: rest).drop 5)
      else if ("null".data).isPrefixOf (c :: rest) then some (.jnull, (c :: rest).drop 4)
      else
        match parseNumberLex (c :: rest) with
        | some (lex, rest2) => some (.jnum ⟨lex⟩, rest2)
        | none => none)
  | Nat.succ fuel, PMode.members acc, cs =>
    (match skipWs cs with
    | c :: rest =>
      if c == '"' then
        match parseJStringAux [] rest with
        | some (key, rest2) =>
          match skipWs rest2 with
          | d :: rest3 =>
            if d == ':' then
              match parseRun fuel PMode.value rest3 with
              | some (v, rest4) =>
                match skipWs rest4 with
                | e :: rest5 =>
                  if e == ',' then parseRun fuel (PMode.members (acc ++ [(key, v)])) rest5
                  else if e == Char.ofNat 125 then some (.jobj (acc ++ [(key, v)]), rest5)
                  else none
                | [] => none
              | none => none
            else none
          | [] => none
        | none => none
      else none
    | [] => none)
  | Nat.succ fuel, PMode.items acc, cs =>
    (match parseRun fuel PMode.value cs with
    | some (v, rest) =>
      match skipWs rest with
      | e :: rest2 =>
        if e == ',' then parseRun fuel (PMode.items (acc ++ [v])) rest2
        else if e == ']' then some (.jarr (acc ++ [v]), rest2)
        else none
      | [] => none
    | none => none)

/-- `JSON.parse`: parse one value and require only whitespace to remain.
Fuel `2 * length + 2` dominates the recursion depth, which consumes at
least one character every two nested calls. -/
def jsonParse (s : String) : Option J :=
  match parseRun (2 * s.length + 2) PMode.value s.data with
  | some (v, rest) => if (skipWs rest).isEmpty then some v else none
  | none => none

/-- Extract the string value of the `action` member of a parsed JSON
object, when present. -/
def jsonActionField : Option J → Option String
  | some (.jobj fields) =>
    (match fields.find? (fun f => f.1 == "action") with
    | some f =>
      match f.2 with
      | .jstr s => some s
      | _ => none
    | none => none)
  | _ => none

/-- The scan loop of `extractFirstJsonObject` (agent core lines 52–77):
string-aware, escape-aware brace-depth tracking; `acc` collects the
consumed characters in reverse. -/
def extractScan : List Char → Nat → Bool → Bool → List Char → Option String
  | [], _, _, _, _ => none
  | c :: rest, depth, inString, escaped, acc =>
    if inString then
      if escaped then extractScan rest depth true false (c :: acc)
      else if c == '\\' then extractScan rest depth true true (c :: acc)
      else if c == '"' then extractScan rest depth false false (c :: acc)
      else extractScan rest depth true false (c :: acc)
    else if c == '"' then extractScan rest depth true false (c :: acc)
    else if c == Char.ofNat 123 then extractScan rest (depth + 1) false false (c :: acc)
    else if c == Char.ofNat 125 then
      if depth = 1 then some ⟨(c :: acc).reverse⟩
      else extractScan rest (depth - 1) false false (c :: acc)
    else extractScan rest depth false false (c :: acc)

/-- `extractFirstJsonObject` (agent core lines 44–80): starting at the
first opening brace, return the span up to the brace that balances it
(string-aware), or `null` when there is no opening brace or the scan
ends unbalanced. -/
def extractFirstJsonObject (text : String) : Option String :=
  let fromBrace := text.data.dropWhile (fun c => c != Char.ofNat 123)
  match fromBrace with
  | [] => none
  | _ => extractScan fromBrace 0 false false []

/-- The fence-stripping prelude of `parseModelJson` (agent core line 83):
trim, drop one leading ```` ``` ```` or ```` ```json ```` fence
(case-insensitively), drop one trailing ```` ``` ```` fence, trim. -/
def stripFences (s : String) : String :=
  let t := jsTrim s
  let afterLead : List Char :=
    if (t.data.take 7).map Char.toLower = "```json".data then t.data.drop 7
    else if t.data.take 3 = "```".data then t.data.drop 3
    else t.data
  let afterTrail : List Char :=
    if 3 ≤ afterLead.length ∧ afterLead.drop (afterLead.length - 3) = "```".data then
      afterLead.take (afterLead.length - 3)
    else afterLead
  jsTrim ⟨afterTrail⟩

/-- `parseModelJson` (agent core lines 82–92): try `JSON.parse` on the
fence-stripped text; on failure, extract the first balanced brace block
and `JSON.parse` it; `none` models the function throwing. -/
def parseModelJson (responseText : String) : Option J :=
  let trimmed := stripFences responseText
  match jsonParse trimmed with
  | some v => some v
  | none =>
    match extractFirstJsonObject trimmed with
    | none => none
    | some block => jsonParse block

/-! ## Action executor (`executeAction`, agent core lines 1293–1377)

The browser page is modelled as an oracle for the locator queries the
executor issues; the random draws of `randomBetween` are modelled by a
supplied function `rand : ℚ → ℚ → ℚ`. The executor's observable outcome
is the updated failure ledger, the list of page interactions performed,
and the message of the raised error, if any (the loop catches it). -/

/-- A page interaction (or emitted warning) performed by the executor. -/
inductive PageEffect where
  | scrollIntoView (selector : String)
  | moveCursor (p : ℚ × ℚ)
  | mouseDown (p : ℚ × ℚ)
  | mouseUp (p : ℚ × ℚ)
  | wheel (deltaY : ℚ)
  | fillClear (selector : String)
  | typeText (value : String)
  | waitMs (ms : Nat)
  | warnThought (msg : String)
deriving DecidableEq

/-- The page oracle: locator match counts, bounding boxes after
scroll-into-view, fillability of the target, and the nearest visible
fillable field to a point. -/
structure PageModel where
  locatorCount : String → Nat
  boundingBox : String → Option RectD
  isFillable : String → Bool
  nearestFillableSel : ℚ × ℚ → Option String
  viewport : Viewport

/-- `Math.max lo (Math.min hi v)` — the agent's `clamp`. -/
def clampQ (v lo hi : ℚ) : ℚ := max lo (min hi v)

/-- `pickTargetPoint` (agent core lines 1018–1032): a random point inside
the rectangle inset by 20% of the minor dimension clamped to 2–10 px,
falling back to the centre on degenerate boxes. -/
def pickTargetPoint (rand : ℚ → ℚ → ℚ) (box : RectD) : ℚ × ℚ :=
  let safePadding := max 2 (min 10 (min box.width box.height * (2/10)))
  let minX := box.left + safePadding
  let maxX := box.left + box.width - safePadding
  let minY := box.top + safePadding
  let maxY := box.top + box.height - safePadding
  let centerX := box.left + box.width / 2
  let centerY := box.top + box.height / 2
  (if minX < maxX then rand minX maxX else centerX,
   if minY < maxY then rand minY maxY else centerY)

/-- The attribute selector `[data-som-id="…"]` used by the executor. -/
def somSelector (targetId : String) : String :=
  "[data-som-id=\"" ++ targetId ++ "\"]"

/-- The cursor/click sequence at a point shared by the executor paths. -/
def clickSequence (selector : String) (p : ℚ × ℚ) : List PageEffect :=
  [.scrollIntoView selector, .moveCursor p, .mouseDown p, .mouseUp p]

/-- `executeAction` (agent core lines 1293–1377): the guarded branch
chain over the decided action. A `click` needs a truthy target id and a
`type` needs a truthy target id and a truthy value; otherwise the
decision falls through every branch (except the bare `scroll`/`wait`
cases) and the method returns without touching the page or the ledger.
Error paths first charge the target id to the ledger and then raise the
message the loop will catch. -/
def executeAction (page : PageModel) (rand : ℚ → ℚ → ℚ) (cursorPos : ℚ × ℚ)
    (decision : LLMResponse) (led : List (String × Nat)) :
    List (String × Nat) × List PageEffect × Option String :=
  if decision.action = Action.click ∧ strTruthy decision.targetId then
    let tid := decision.targetId.getD ""
    let selector := somSelector tid
    if 0 < page.locatorCount selector then
      match page.boundingBox selector with
      | none =>
        (markTargetFailure (some tid) led, [.scrollIntoView selector],
         some ("Element " ++ tid ++ " has no bounding box"))
      | some box =>
        (led, clickSequence selector (pickTargetPoint rand box), none)
    else
      (markTargetFailure (some tid) led, [], some ("Element " ++ tid ++ " not found"))
  else if decision.action = Action.scroll then
    let roam : ℚ × ℚ :=
      (clampQ (cursorPos.1 + rand (-120) 120) 4 (page.viewport.innerWidth - 4),
       clampQ (cursorPos.2 + rand (-80) 80) 4 (page.viewport.innerHeight - 4))
    (led, [.moveCursor roam, .wheel (rand 320 680)], none)
  else if decision.action = Action.type ∧ strTruthy decision.targetId ∧ strTruthy decision.value then
    let tid := decision.targetId.getD ""
    let v := decision.value.getD ""
    let selector := somSelector tid
    if page.locatorCount selector = 0 then
      (markTargetFailure (some tid) led, [], some ("Input " ++ tid ++ " not found"))
    else
      match page.boundingBox selector with
      | none =>
        (markTargetFailure (some tid) led, [.scrollIntoView selector],
         some ("Input " ++ tid ++ " has no bounding box"))
      | some box =>
        let p := pickTargetPoint rand box
        let focusFx := clickSequence selector p
        if page.isFillable selector then
          (led, focusFx ++ [.fillClear selector, .typeText v], none)
        else
          match page.nearestFillableSel p with
          | none =>
            (markTargetFailure (some tid) led, focusFx,
             some ("Target " ++ tid ++ " is not a fillable field and no nearby input was found"))
          | some fallbackSel =>
            let fallbackFx :=
              match page.boundingBox fallbackSel with
              | some fBox => clickSequence fallbackSel (pickTargetPoint rand fBox)
              | none => [.scrollIntoView fallbackSel]
            (led,
             focusFx ++ fallbackFx ++
               [.warnThought ("#" ++ tid ++ " war kein Eingabefeld. Ich nutze ein naheliegendes Suchfeld."),
                .fillClear fallbackSel, .typeText v],
             none)
  else if decision.action = Action.wait then
    (led, [.waitMs 2000], none)
  else
    (led, [], none)

/-! ## Concrete fixtures used by counterexamples and witnesses -/

/-- A `click #1` history entry. -/
def clickStep : LLMResponse :=
  { thought := "t", action := Action.click, targetId := some "1", value := none }

/-- A gate state with an outstanding speech request. -/
def outstandingGate : TtsGateState :=
  { isTtsEnabled := true, pendingTtsAckId := some "tts-1",
    resolverParked := true, timerArmed := true }

/-- A gate state with no outstanding speech request. -/
def idleGate : TtsGateState :=
  { isTtsEnabled := true, pendingTtsAckId := none,
    resolverParked := false, timerArmed := false }

/-- A standard desktop viewport. -/
def somVp : Viewport := { innerWidth := 1280, innerHeight := 720 }

/-- A visible, enabled native `button` element. -/
def tinyButtonFields : ElementFields :=
  { tag := "button", role := "", tabindex := none, hasOnclick := false,
    cursor := "", className := "", attrsText := "", textContent := "Shop",
    innerText := "Shop", ariaLabel := "", title := "", href := "",
    inputTypeHidden := false, disabled := false, ariaDisabledTrue := false,
    ariaHiddenTrue := false, isOverlay := false, checkVisibilityOk := true,
    displayNone := false, visibilityHidden := false, pointerEventsNone := false }

/-- A sub-pixel-area rectangle (half a pixel by nine tenths of a pixel):
positive dimensions, inside the viewport, area 9/20 < 1. -/
def tinyRect : RectD := { left := 10, top := 10, width := 1/2, height := 9/10 }

/-- First tiny native button. -/
def tinyNode1 : SomNode :=
  { fields := tinyButtonFields, rect := tinyRect, ancestors := [] }

/-- Second tiny native button occupying exactly the same rectangle. -/
def tinyNode2 : SomNode :=
  { fields := { tinyButtonFields with textContent := "About", innerText := "About" },
    rect := tinyRect, ancestors := [] }

/-- The amended C4 overlap relation: the intersection of two accepted
rectangles is at most 0.92 of the smaller area clamped below at 1 px². -/
def overlapOkP (a b : SomNode) : Prop :=
  intersectionArea a.rect b.rect ≤ (92 : ℚ)/100 * max 1 (min a.rect.area b.rect.area)

/-- A model output whose first opening brace is never balanced, although
a balanced object with a valid action field follows it. -/
def c8Input : String := "\x7b \x7b\"action\": \"wait\"\x7d"

/-- The balanced object substring contained in `c8Input`. -/
def c8Block : String := "\x7b\"action\": \"wait\"\x7d"

/-- A model output with prose around a balanced JSON object whose first
opening brace starts the balanced block. -/
def c8GoodInput : String := "Ich klicke. \x7b\"action\": \"click\", \"targetId\": 3\x7d danke"

/-! ## Helper lemmas -/

theorem ledgerGet_ledgerSet (led : List (String × Nat)) (id : String) (n : Nat) (m : String) :
    ledgerGet (ledgerSet led id n) m = if m = id then n else ledgerGet led m := by
  induction led with
  | nil =>
    simp only [ledgerSet, ledgerGet]
    by_cases h : m = id
    · rw [if_pos h.symm, if_pos h]
    · rw [if_neg (fun e => h e.symm), if_neg h]
  | cons head tail ih =>
    obtain ⟨k, v⟩ := head
    by_cases hk : k = id
    · subst hk
      simp only [ledgerSet, if_pos rfl, ledgerGet]
      by_cases h : m = k
      · rw [if_pos h.symm, if_pos h]
      · rw [if_neg (fun e => h e.symm), if_neg h, if_neg (fun e => h e.symm)]
    · simp only [ledgerSet, if_neg hk, ledgerGet]
      by_cases h : k = m
      · have hmi : ¬ m = id := fun e => hk (h.trans e)
        rw [if_pos h, if_neg hmi, ledgerGet.eq_def]
        simp [h]
      · rw [if_neg h, ih, ledgerGet.eq_def]
        simp [h]

theorem ledgerGet_le_ledgerSet_incr (led : List (String × Nat)) (id m : String) :
    ledgerGet led m ≤ ledgerGet (ledgerSet led id (ledgerGet led id + 1)) m := by
  rw [ledgerGet_ledgerSet]
  by_cases h : m = id
  · subst h; simp
  · simp [h]

theorem selectAux_length_le (cs : List SomNode) (acc : List SomNode)
    (h : acc.length ≤ 220) : (selectAux cs acc).length ≤ 220 := by
  induction cs generalizing acc with
  | nil => simpa [selectAux] using h
  | cons c rest ih =>
    simp only [selectAux]
    by_cases h220 : 220 ≤ acc.length
    · simpa [h220] using h
    · rw [if_neg h220]
      by_cases hdup : acc.any (fun e => decide ((92 : ℚ)/100 < overlapRatio c.rect e.rect)) = true
      · rw [if_pos hdup]
        exact ih acc h
      · rw [if_neg hdup]
        apply ih
        simp only [List.length_append, List.length_singleton]
        omega

theorem mem_selectAux (cs : List SomNode) (acc : List SomNode) (x : SomNode)
    (hx : x ∈ selectAux cs acc) : x ∈ acc ∨ x ∈ cs := by
  induction cs generalizing acc with
  | nil => exact Or.inl (by simpa [selectAux] using hx)
  | cons c rest ih =>
    simp only [selectAux] at hx
    by_cases h220 : 220 ≤ acc.length
    · rw [if_pos h220] at hx
      exact Or.inl hx
    · rw [if_neg h220] at hx
      by_cases hdup : acc.any (fun e => decide ((92 : ℚ)/100 < overlapRatio c.rect e.rect)) = true
      · rw [if_pos hdup] at hx
        rcases ih acc hx with h | h
        · exact Or.inl h
        · exact Or.inr (List.mem_cons_of_mem _ h)
      · rw [if_neg hdup] at hx
        rcases ih _ hx with h | h
        · rcases List.mem_append.mp h with h | h
          · exact Or.inl h
          · simp at h
            exact Or.inr (h ▸ List.mem_cons_self _ _)
        · exact Or.inr (List.mem_cons_of_mem _ h)

theorem mem_insertSorted (x y : SomNode) (l : List SomNode) :
    y ∈ insertSorted x l ↔ y = x ∨ y ∈ l := by
  induction l with
  | nil => simp [insertSorted]
  | cons a rest ih =>
    by_cases h : candBefore x a = true
    · rw [show insertSorted x (a :: rest) = x :: a :: rest from by
        simp only [insertSorted, if_pos h]]
      simp
    · rw [show insertSorted x (a :: rest) = a :: insertSorted x rest from by
        simp only [insertSorted, if_neg h]]
      rw [List.mem_cons, ih, List.mem_cons]
      tauto

theorem mem_sortCandidates (y : SomNode) (l : List SomNode) :
    y ∈ sortCandidates l ↔ y ∈ l := by
  induction l with
  | nil => simp [sortCandidates]
  | cons a rest ih =>
    simp [sortCandidates, mem_insertSorted, ih]

theorem intersectionArea_comm (a b : RectD) :
    intersectionArea a b = intersectionArea b a := by
  simp only [intersectionArea]
  rw [max_comm a.left b.left, min_comm a.right b.right,
    max_comm a.top b.top, min_comm a.bottom b.bottom]

theorem overlap_bound_of_not_gt {a b : RectD}
    (h : ¬ ((92 : ℚ)/100 < overlapRatio a b)) :
    intersectionArea a b ≤ (92 : ℚ)/100 * max 1 (min a.area b.area) := by
  have hpos : (0 : ℚ) < max 1 (min a.area b.area) :=
    lt_of_lt_of_le one_pos (le_max_left _ _)
  have hle : overlapRatio a b ≤ (92 : ℚ)/100 := not_lt.mp h
  rw [overlapRatio, div_le_iff₀ hpos] at hle
  exact hle

theorem selectAux_pairwise (cs : List SomNode) (acc : List SomNode)
    (hacc : acc.Pairwise overlapOkP) : (selectAux cs acc).Pairwise overlapOkP := by
  induction cs generalizing acc with
  | nil => simpa [selectAux] using hacc
  | cons c rest ih =>
    simp only [selectAux]
    by_cases h220 : 220 ≤ acc.length
    · simpa [h220] using hacc
    · rw [if_neg h220]
      by_cases hdup : acc.any (fun e => decide ((92 : ℚ)/100 < overlapRatio c.rect e.rect)) = true
      · rw [if_pos hdup]
        exact ih acc hacc
      · rw [if_neg hdup]
        apply ih
        rw [List.pairwise_append]
        refine ⟨hacc, List.pairwise_singleton _ _, ?_⟩
        intro a ha b hb
        simp only [List.mem_singleton] at hb
        rw [hb]
        have hfalse : acc.any (fun e => decide ((92 : ℚ)/100 < overlapRatio c.rect e.rect))
            = false := by
          cases hval : acc.any (fun e => decide ((92 : ℚ)/100 < overlapRatio c.rect e.rect)) with
          | false => rfl
          | true => exact absurd hval hdup
        rw [List.any_eq_false] at hfalse
        have hno : ¬ ((92 : ℚ)/100 < overlapRatio c.rect a.rect) := by
          have := hfalse a ha
          simpa using this
        have hb := overlap_bound_of_not_gt hno
        rw [overlapOkP]
        rw [intersectionArea_comm, min_comm] at hb
        exact hb

theorem isInteractable_no_strong_ancestor (vp : Viewport) (n : SomNode)
    (h : isInteractable vp n = true) (hs : nodeScore n ≤ 2) :
    hasStrongInteractiveAncestor n.ancestors = false := by
  cases hstrong : hasStrongInteractiveAncestor n.ancestors with
  | false => rfl
  | true =>
    exfalso
    simp only [isInteractable, Bool.and_eq_true] at h
    obtain ⟨-, hinner⟩ := h
    by_cases h0 : getInteractiveScore n.fields = 0
    · rw [if_pos h0] at hinner
      exact Bool.false_ne_true hinner
    · rw [if_neg h0] at hinner
      by_cases hc1 : ((!NATIVE_TAGS.contains (jsLower n.fields.tag)) = true ∧
          (decide (n.rect.width < 18) || decide (n.rect.height < 18) ||
            decide (n.rect.area < 320)) = true)
      · rw [if_pos hc1] at hinner
        exact Bool.false_ne_true hinner
      · rw [if_neg hc1] at hinner
        rw [if_pos ⟨decide_eq_true hs, hstrong⟩] at hinner
        exact Bool.false_ne_true hinner

/-! ## Claim C3 — mark cap, id density and count -/

/-- Claim C3: every SoM observation accepts at most 220 marks, the
assigned mark ids are exactly 0, 1, …, count−1 in acceptance order, and
the reported count equals the number of element records returned. -/
theorem c3_som_id_density (vp : Viewport) (domNodes : List SomNode) :
    (injectSoM vp domNodes).count ≤ 220 ∧
    (injectSoM vp domNodes).elements.map SoMElementMeta.id =
      List.range (injectSoM vp domNodes).count ∧
    (injectSoM vp domNodes).count = (injectSoM vp domNodes).elements.length := by
  refine ⟨?_, ?_, ?_⟩
  · exact selectAux_length_le _ [] (by simp)
  · show (List.map _ (List.map _ _)) = _
    rw [List.map_map]
    have : (SoMElementMeta.id ∘ fun p : Nat × SomNode => metaOf p.1 p.2) = Prod.fst := by
      funext p
      rfl
    rw [this, List.enum_map_fst]
    rfl
  · show _ = (List.map _ _).length
    rw [List.length_map, List.enum_length]
    rfl

/-! ## Claim C4 — overlap dedup and ancestor dedup -/

/-- Claim C4 counterexample: the claim states that no two accepted marks
have rectangles whose intersection exceeds 0.92 of the smaller
rectangle's area; two native buttons occupying the same sub-pixel-area
rectangle (area 9/20) are both accepted — the `Math.max(1, …)` clamp in
`overlapRatio` makes their ratio 9/20 ≤ 0.92 — yet their intersection
9/20 exceeds 0.92 of the smaller area. -/
theorem c4_tiny_overlap_counterexample :
    selectMarks (sortCandidates (([tinyNode1, tinyNode2]).filter (isInteractable somVp))) =
      [tinyNode1, tinyNode2] ∧
    (92 : ℚ)/100 * min tinyNode1.rect.area tinyNode2.rect.area <
      intersectionArea tinyNode1.rect tinyNode2.rect := by
  have hscore1 : getInteractiveScore tinyNode1.fields = 4 := by decide
  have hscore2 : getInteractiveScore tinyNode2.fields = 4 := by decide
  have htag : NATIVE_TAGS.contains (jsLower tinyButtonFields.tag) = true := by decide
  have hvis : isVisible somVp tinyNode1 = true ∧ isVisible somVp tinyNode2 = true := by
    constructor <;>
      norm_num [isVisible, isInViewport, tinyNode1, tinyNode2, tinyButtonFields, tinyRect,
        somVp, RectD.right, RectD.bottom]
  have hmem : jsLower "button" ∈ NATIVE_TAGS := by decide
  have hint1 : isInteractable somVp tinyNode1 = true := by
    rw [isInteractable, hvis.1, hscore1]
    norm_num [tinyNode1, tinyButtonFields]
    exact Or.inl hmem
  have hint2 : isInteractable somVp tinyNode2 = true := by
    rw [isInteractable, hvis.2, hscore2]
    norm_num [tinyNode2, tinyButtonFields]
    exact Or.inl hmem
  have hfilter : ([tinyNode1, tinyNode2]).filter (isInteractable somVp) =
      [tinyNode1, tinyNode2] := by
    simp [List.filter, hint1, hint2]
  have hbefore : candBefore tinyNode1 tinyNode2 = true := by
    rw [candBefore, nodeScore, nodeScore, hscore1, hscore2]
    norm_num [tinyNode1, tinyNode2]
  have hsort : sortCandidates [tinyNode1, tinyNode2] = [tinyNode1, tinyNode2] := by
    simp [sortCandidates, insertSorted, hbefore]
  have hratio : overlapRatio tinyNode2.rect tinyNode1.rect = 9/20 := by
    norm_num [overlapRatio, intersectionArea, RectD.area, RectD.right, RectD.bottom,
      tinyNode1, tinyNode2, tinyRect]
  have hlt : ¬ ((92 : ℚ)/100 < overlapRatio tinyNode2.rect tinyNode1.rect) := by
    rw [hratio]
    norm_num
  have hselect : selectMarks [tinyNode1, tinyNode2] = [tinyNode1, tinyNode2] := by
    simp only [selectMarks, selectAux, List.nil_append, List.any_nil, List.any_cons,
      Bool.or_false, decide_eq_false hlt, List.length_nil, List.length_cons]
    norm_num
  refine ⟨?_, ?_⟩
  · rw [hfilter, hsort, hselect]
  · norm_num [intersectionArea, RectD.area, RectD.right, RectD.bottom,
      tinyNode1, tinyNode2, tinyRect]

/-- Claim C4 (amended): in every observation the accepted marks are
pairwise non-overlapping in the code's sense — the intersection area is
at most 0.92 of the smaller rectangle's area clamped below at 1 px²
(the clamp is the `Math.max(1, …)` guard of `overlapRatio`) — and no
accepted mark of interactive score ≤ 2 has a strong ancestor (score ≥ 2)
within depth 8. -/
theorem c4_som_dedup_amended (vp : Viewport) (domNodes : List SomNode) :
    (selectMarks (sortCandidates (domNodes.filter (isInteractable vp)))).Pairwise overlapOkP ∧
    (selectMarks (sortCandidates (domNodes.filter (isInteractable vp)))).all
      (fun n => !(decide (nodeScore n ≤ 2)) || !(hasStrongInteractiveAncestor n.ancestors))
      = true := by
  constructor
  · exact selectAux_pairwise _ [] (List.Pairwise.nil)
  · rw [List.all_eq_true]
    intro n hn
    rcases mem_selectAux _ [] n hn with h | h
    · simp at h
    · have hmem := (mem_sortCandidates n _).mp h
      have hint := (List.mem_filter.mp hmem).2
      by_cases hs : nodeScore n ≤ 2
      · have := isInteractable_no_strong_ancestor vp n hint hs
        simp [this]
      · simp [hs]

/-! ## Claim C1 — decision normalisation -/

/-- Claim C1 counterexample: the claim states that the raw action `stop`
is mapped to `done`; on the code, `normalizeDecision` maps `stop` to the
distinct action `stop`, which is also outside the claimed five-action
set \x7bclick, scroll, type, wait, done\x7d. -/
theorem c1_stop_maps_to_stop_counterexample :
    (normalizeDecision ⟨some "stop", some "Ich stoppe hier.", none, none, none⟩).action
      = Action.stop ∧
    Action.stop ≠ Action.done ∧
    Action.stop ∉ ([Action.click, Action.scroll, Action.type, Action.wait, Action.done] :
      List Action) := by
  decide

/-- Claim C1 (amended): for every raw model response, `normalizeDecision`
returns an action in \x7bclick, scroll, type, wait, done, stop\x7d, where
`fail` maps to `done` but `stop` maps to the separate action `stop` (the
control loop treats `stop` exactly like `done`), any unrecognised action
string maps to `wait`, and the returned thought is a non-empty string
(the default uncertainty message replaces a missing or blank thought). -/
theorem c1_normalizeDecision_amended (raw : RawResponse) :
    (rawActionKey raw = "stop" → (normalizeDecision raw).action = Action.stop) ∧
    (rawActionKey raw = "fail" → (normalizeDecision raw).action = Action.done) ∧
    (rawActionKey raw ∉ (["click", "scroll", "type", "done", "stop", "fail"] : List String) →
      (normalizeDecision raw).action = Action.wait) ∧
    (normalizeDecision raw).thought ≠ "" := by
  refine ⟨fun h => ?_, fun h => ?_, fun h => ?_, ?_⟩
  · simp [normalizeDecision, h]
  · simp [normalizeDecision, h]
  · have h1 : ¬ rawActionKey raw = "click" := fun e => h (by rw [e]; decide)
    have h2 : ¬ rawActionKey raw = "scroll" := fun e => h (by rw [e]; decide)
    have h3 : ¬ rawActionKey raw = "type" := fun e => h (by rw [e]; decide)
    have h4 : ¬ rawActionKey raw = "done" := fun e => h (by rw [e]; decide)
    have h5 : ¬ rawActionKey raw = "stop" := fun e => h (by rw [e]; decide)
    have h6 : ¬ rawActionKey raw = "fail" := fun e => h (by rw [e]; decide)
    simp [normalizeDecision, h1, h2, h3, h4, h5, h6]
  · cases hth : raw.thought with
    | none => simp [normalizeDecision, hth, defaultThought]
    | some t =>
      by_cases hp : 0 < (jsTrim t).length
      · simp only [normalizeDecision, hth, gt_iff_lt, hp, if_true, ne_eq]
        intro e
        rw [e] at hp
        simp at hp
      · simp [normalizeDecision, hth, hp, defaultThought]

/-- Claim C1 witness: the amended theorem applied to three concrete raw
responses (`fail`, a padded upper-case `STOP`, and an unknown action). -/
theorem c1_normalizeDecision_amended_witness :
    (normalizeDecision ⟨some "fail", none, none, none, none⟩).action = Action.done ∧
    (normalizeDecision ⟨some " STOP ", some "x", none, none, none⟩).action = Action.stop ∧
    (normalizeDecision ⟨some "jump", none, none, none, none⟩).action = Action.wait ∧
    (normalizeDecision ⟨some "jump", some "  ", none, none, none⟩).thought ≠ "" :=
  ⟨(c1_normalizeDecision_amended ⟨some "fail", none, none, none, none⟩).2.1 (by decide),
   (c1_normalizeDecision_amended ⟨some " STOP ", some "x", none, none, none⟩).1 (by decide),
   (c1_normalizeDecision_amended ⟨some "jump", none, none, none, none⟩).2.2.1 (by decide),
   (c1_normalizeDecision_amended ⟨some "jump", some "  ", none, none, none⟩).2.2.2⟩

/-! ## Claim C2 — stagnation detector -/

/-- Claim C2 counterexample: on a history of nine `click #1` entries with
the counter at 2, the claimed behaviour (at least 8 of the inspected
entries actionable, at most 3 unique keys, hence increment to 3 and exit)
differs from the code, which decrements to 1 and reports no stagnation
whenever fewer than ten entries exist. -/
theorem c2_short_history_counterexample :
    detectStagnation (List.replicate 9 clickStep) 2 = (1, false) ∧
    detectStagnationClaim (List.replicate 9 clickStep) 2 = (3, true) := by
  decide

/-- Claim C2 (amended): when at least ten history entries exist the
detector behaves exactly as the claim words it (increment on ≥8
actionable entries of the last ten covering ≤3 unique keys, else
decrement clamped at zero, the loop exiting when the counter reaches 3);
with fewer than ten entries it always decrements and never reports
stagnation. -/
theorem c2_detectStagnation_amended (history : List LLMResponse) (counter : Nat) :
    detectStagnation history counter =
      if 10 ≤ history.length then detectStagnationClaim history counter
      else (counter - 1, false) := by
  have hlen : (lastN 10 history).length = history.length - (history.length - 10) := by
    simp [lastN]
  by_cases h : 10 ≤ history.length
  · have hnot : ¬ (lastN 10 history).length < 10 := by omega
    simp only [detectStagnation, detectStagnationClaim, hnot, if_false, if_pos h]
  · have hyes : (lastN 10 history).length < 10 := by omega
    simp only [detectStagnation, hyes, if_true, if_neg h]

/-! ## Claim C5 — anti-loop hint -/

/-- Claim C5 counterexample: the claim states the hint is included iff
some (action, targetId) pair occurs at least twice among the last eight
history entries; on a history of two identical `click #1` entries the
key `click:1` occurs twice, yet the code returns no hint because fewer
than six recent entries exist. -/
theorem c5_min_six_gate_counterexample :
    buildLoopGuardHint [clickStep, clickStep] = none ∧
    ((lastN 8 [clickStep, clickStep]).map historyKey).count "click:1" = 2 := by
  decide

/-- Claim C5 (amended): the anti-loop hint is included iff the history
holds at least six entries and some (action, targetId) key occurs at
least twice among the last eight entries. -/
theorem c5_loop_guard_amended (history : List LLMResponse) :
    (buildLoopGuardHint history).isSome =
      (decide (6 ≤ history.length) &&
        ((lastN 8 history).map historyKey).any
          (fun k => decide (2 ≤ ((lastN 8 history).map historyKey).count k))) := by
  have hlen8 : (lastN 8 history).length = history.length - (history.length - 8) := by
    simp [lastN]
  by_cases h6 : 6 ≤ history.length
  · have hnot : ¬ (lastN 8 history).length < 6 := by omega
    simp only [buildLoopGuardHint, hnot, if_false, h6, decide_true_eq_true, Bool.true_and]
    by_cases hrep :
        (((lastN 8 history).map historyKey).dedup.filter
          (fun k => decide (2 ≤ ((lastN 8 history).map historyKey).count k))).isEmpty = true
    · rw [if_pos hrep]
      have hall := List.filter_eq_nil_iff.mp (List.isEmpty_iff.mp hrep)
      symm
      rw [Option.isSome_none, ← Bool.not_eq_true, List.any_eq_true]
      rintro ⟨k, hk, hck⟩
      exact hall k (List.mem_dedup.mpr hk) hck
    · rw [if_neg hrep]
      have hne : (((lastN 8 history).map historyKey).dedup.filter
          (fun k => decide (2 ≤ ((lastN 8 history).map historyKey).count k))) ≠ [] :=
        fun e => hrep (List.isEmpty_iff.mpr e)
      obtain ⟨k, hk⟩ := List.exists_mem_of_ne_nil _ hne
      have hk2 := List.mem_filter.mp hk
      symm
      rw [Option.isSome_some, List.any_eq_true]
      exact ⟨k, List.mem_dedup.mp hk2.1, hk2.2⟩
  · have hyes : (lastN 8 history).length < 6 := by omega
    simp [buildLoopGuardHint, hyes, h6]

/-! ## Claim C7 — failed-target ledger -/

/-- Claim C7 counterexample: the claim states that per-mark failure
counts decay on observations that succeed; on the code, a loop turn that
raises no error leaves the ledger — concretely a count of 2 for mark 7 —
exactly as it was. -/
theorem c7_no_decay_counterexample :
    loopTurnLedger none [("7", 2)] = [("7", 2)] ∧
    ledgerGet (loopTurnLedger none [("7", 2)]) "7" = 2 := by
  decide

/-- Claim C7 (amended): within a run, failure counts are monotonically
non-decreasing: the only ledger writes — `markTargetFailure` from the
executor and the loop's catch-block increment — never lower any count,
and only the next run's `start()` resets the ledger to empty. -/
theorem c7_ledger_monotone_amended (errMsg : Option String) (targetId : Option String)
    (led : List (String × Nat)) (m : String) :
    ledgerGet led m ≤ ledgerGet (markTargetFailure targetId led) m ∧
    ledgerGet led m ≤ ledgerGet (loopTurnLedger errMsg led) m ∧
    ledgerGet runStartLedger m = 0 := by
  refine ⟨?_, ?_, rfl⟩
  · cases targetId with
    | none => simp [markTargetFailure]
    | some id =>
      by_cases h : id = ""
      · simp [markTargetFailure, h]
      · simp only [markTargetFailure, if_neg h]
        exact ledgerGet_le_ledgerSet_incr led id m
  · cases errMsg with
    | none => simp [loopTurnLedger]
    | some msg =>
      simp only [loopTurnLedger]
      cases findMissingTargetId msg.data with
      | none => simp
      | some tid =>
        simpa using ledgerGet_le_ledgerSet_incr led tid m

/-! ## Claim C6 — voice toggle and the speech gate -/

/-- Claim C6 counterexample: the claim states that setting voice to OFF
while a speech request is outstanding cancels the pending wait; on the
code, `setTtsEnabled false` leaves the pending request id and the parked
resolver untouched, so the wait stays suspended. -/
theorem c6_toggle_counterexample :
    (setTtsEnabled false outstandingGate).pendingTtsAckId = some "tts-1" ∧
    (setTtsEnabled false outstandingGate).resolverParked = true := by
  decide

/-- Claim C6 (amended): the runtime voice toggle only assigns the flag
and never resolves an outstanding wait; the wait is resolved by
`clearPendingTtsAck`, reached via a matching playback acknowledgement,
the watchdog timeout, or `stop()`. -/
theorem c6_toggle_amended (enabled : Bool) (s : TtsGateState) (rid : String) :
    (setTtsEnabled enabled s).pendingTtsAckId = s.pendingTtsAckId ∧
    (setTtsEnabled enabled s).resolverParked = s.resolverParked ∧
    (stopTtsFields s).resolverParked = false ∧
    (ttsWatchdogFire s).resolverParked = false ∧
    (s.pendingTtsAckId = some rid → rid ≠ "" →
      notifyTtsPlaybackDone (some rid) s = clearPendingTtsAck s) := by
  refine ⟨rfl, rfl, rfl, rfl, fun hp hr => ?_⟩
  simp [notifyTtsPlaybackDone, hp, hr]

/-- Claim C6 witness: the amended theorem applied to the concrete
outstanding-request state with the matching request id `tts-1`. -/
theorem c6_toggle_amended_witness :
    notifyTtsPlaybackDone (some "tts-1") outstandingGate = clearPendingTtsAck outstandingGate ∧
    (setTtsEnabled false outstandingGate).resolverParked = outstandingGate.resolverParked :=
  ⟨(c6_toggle_amended false outstandingGate "tts-1").2.2.2.2 (by decide) (by decide),
   (c6_toggle_amended false outstandingGate "tts-1").2.1⟩

/-! ## Claim C10 — tts broadcast with no connected clients -/

/-- Claim C10: when a `tts` event is emitted while no operator websocket
client is OPEN, the server immediately acknowledges playback for that
request id, so the speech gate's pending id, parked resolver and armed
watchdog are all cleared at once rather than suspending until the
watchdog timeout. -/
theorem c10_tts_no_clients (clients : List WsClient) (requestId : String) (s : TtsGateState)
    (hClients : ∀ c ∈ clients, c.readyState ≠ 1) (hId : requestId ≠ "") :
    (speakEmitTts clients requestId s).pendingTtsAckId = none ∧
    (speakEmitTts clients requestId s).resolverParked = false ∧
    (speakEmitTts clients requestId s).timerArmed = false := by
  have hzero : broadcastDelivered clients = 0 := by
    simp only [broadcastDelivered, List.countP_eq_zero]
    intro c hc
    simpa using hClients c hc
  simp [speakEmitTts, serverTtsHandler, hzero, notifyTtsPlaybackDone, hId, clearPendingTtsAck]

/-- Claim C10 witness: emitting a speech request with an empty client
list resolves the gate immediately. -/
theorem c10_tts_no_clients_witness :
    (speakEmitTts [] "tts-1" idleGate).pendingTtsAckId = none ∧
    (speakEmitTts [] "tts-1" idleGate).resolverParked = false ∧
    (speakEmitTts [] "tts-1" idleGate).timerArmed = false :=
  c10_tts_no_clients [] "tts-1" idleGate (by simp) (by decide)

/-! ## Claim C8 — JSON tolerance of the model-response parser -/

/-- Claim C8 counterexample: the claim states that every input containing
a balanced brace block with a valid action field parses without
exception; `c8Input` contains the balanced block `c8Block`, whose
parse yields a valid `action` field, yet `parseModelJson` throws because
the extraction starts at the input's first opening brace, which is never
balanced. -/
theorem c8_unbalanced_prefix_counterexample :
    (parseModelJson c8Input).isSome = false ∧
    containsSub c8Block.data c8Input.data = true ∧
    jsonActionField (jsonParse c8Block) = some "wait" := by
  decide

/-- Claim C8 (amended): an input parses without exception whenever the
first opening brace of its fence-stripped text opens a string-aware
brace-balanced block that is itself valid JSON (in particular whenever
the whole stripped text is valid JSON); a balanced valid block whose
opening brace is not the first one does not guarantee success. -/
theorem c8_parse_amended (s block : String)
    (hExtract : extractFirstJsonObject (stripFences s) = some block)
    (hValid : (jsonParse block).isSome = true) :
    (parseModelJson s).isSome = true := by
  simp only [parseModelJson]
  cases hj : jsonParse (stripFences s) with
  | some v => simp
  | none =>
    simp only [hExtract]
    exact hValid

/-- Claim C8 witness: the amended theorem applied to a concrete output
with prose around a balanced object. -/
theorem c8_parse_amended_witness :
    (parseModelJson c8GoodInput).isSome = true :=
  c8_parse_amended c8GoodInput "\x7b\"action\": \"click\", \"targetId\": 3\x7d"
    (by decide) (by decide)

/-! ## Claim C9 — silently dropped decisions in the executor -/

/-- Claim C9: a `click` decision without a truthy target id, and a `type`
decision missing a truthy target id or a truthy value, fall through every
branch of `executeAction`: the page is not touched, the failed-target
ledger is unchanged, and no error is raised. -/
theorem c9_guarded_drop (page : PageModel) (rand : ℚ → ℚ → ℚ) (cursorPos : ℚ × ℚ)
    (decision : LLMResponse) (led : List (String × Nat))
    (h : (decision.action = Action.click ∧ strTruthy decision.targetId = false) ∨
         (decision.action = Action.type ∧
           (strTruthy decision.targetId = false ∨ strTruthy decision.value = false))) :
    executeAction page rand cursorPos decision led = (led, [], none) := by
  rcases h with ⟨ha, ht⟩ | ⟨ha, ht⟩
  · simp [executeAction, ha, ht]
  · rcases ht with ht | ht <;> simp [executeAction, ha, ht]

/-- Claim C9 witness: a concrete `click` decision with no target id and a
concrete `type` decision with an empty value are both dropped on a
concrete page model. -/
theorem c9_guarded_drop_witness :
    executeAction
      { locatorCount := fun _ => 1, boundingBox := fun _ => none,
        isFillable := fun _ => false, nearestFillableSel := fun _ => none,
        viewport := { innerWidth := 1280, innerHeight := 720 } }
      (fun a _ => a) (0, 0)
      { thought := "t", action := Action.click, targetId := none, value := none }
      [] = ([], [], none) :=
  c9_guarded_drop _ _ _ _ _ (Or.inl ⟨rfl, rfl⟩)

end AJETE
